import Mathlib

/-!
Verification of the covid-epidemic-dashboard analytics core.

Shallow embedding, over exact rationals, of the numerical core of the
repository `dea-238/covid-epidemic-dashboard`:

* `src/rt.py` — the renewal-equation R_t estimator (`estimate_rt`,
  `_discrete_gamma_pmf`);
* `src/analysis.py` — the intervention counterfactual
  (`analyze_intervention_impact`);
* `src/seir.py` — the SEIR compartmental simulator (`simulate_seir`);
* `src/forecast.py` — the Prophet-based forecaster with its linear-trend
  fallback (`fit_forecast`, `_simple_forecast`).

External third-party libraries are abstracted as parameters of the embedded
functions, with their documented contracts as hypotheses of the theorems:
the scipy gamma CDF (`cdf`), the scipy ODE integrator `odeint`, and the
Prophet model (`fitPredict` / `holidaysOutcome`).  Floating-point arithmetic
is idealized as exact rational arithmetic.  The input case series is taken
in date order, matching the data-model invariant of strictly increasing
dates — on such input `df.sort_values('date')` is the identity.
-/

namespace CovidDash

/-- Python `int(x)`: truncation toward zero. -/
def pytrunc (x : ℚ) : ℤ :=
  if 0 ≤ x then Int.floor x else Int.ceil x

/-- pandas `Series.rolling(window, min_periods=1, center=True).mean()` for a
fixed integer window `w ≥ 1` on a series of length `n`: at index `t` the
window covers rows `[max 0 (t+1+offset-w), min n (t+1+offset))` where
`offset = (w-1)/2` (integer division) — the bounds computed by pandas'
`FixedWindowIndexer.get_window_bounds` with `center=True` and then clipped
to the frame.  With `min_periods=1` the mean is taken over whatever rows
fall inside the frame. -/
def rollingMeanCentered (w : ℕ) (xs : List ℚ) : List ℚ :=
  let n := xs.length
  (List.range n).map (fun t =>
    let offset := (w - 1) / 2
    let lo := t + 1 + offset - w
    let hi := min n (t + 1 + offset)
    let win := (xs.drop lo).take (hi - lo)
    win.sum / (win.length : ℚ))

/-- The local variable `pmf` of `_discrete_gamma_pmf` (`src/rt.py`)
before normalization: `np.maximum(cdf - cdf_prev, 0)` for `s = 1, …,
k_max`, with the scipy gamma CDF abstracted as `cdf : ℕ → ℚ` (`cdf s`
stands for `Gamma.cdf(s, a=shape, scale=mean_si/shape)`; scipy is
external third-party code, evaluated here only at `0, …, k_max`). -/
def rawGammaPmf (cdf : ℕ → ℚ) (kmax : ℕ) : List ℚ :=
  (List.range kmax).map (fun i => max (cdf (i + 1) - cdf i) 0)

/-- `_discrete_gamma_pmf` from `src/rt.py`: the clipped masses
`rawGammaPmf`, normalized to sum 1 when the clipped total is positive
(`if pmf.sum() > 0`), returned unnormalized (all-zero) otherwise. -/
def discrete_gamma_pmf (cdf : ℕ → ℚ) (kmax : ℕ) : List ℚ :=
  if 0 < (rawGammaPmf cdf kmax).sum then
    (rawGammaPmf cdf kmax).map (fun x => x / (rawGammaPmf cdf kmax).sum)
  else rawGammaPmf cdf kmax

/-- `k_max = max(1, int(5 * serial_interval))` from `src/rt.py` line 21
(`int` is Python truncation toward zero). -/
def kmaxOf (serial_interval : ℚ) : ℕ :=
  max 1 (pytrunc (5 * serial_interval)).toNat

/-- The smoothed incidence series used inside `estimate_rt`:
`df['cases'].astype(float).fillna(0.0)` followed by the centered rolling
mean of width `window`. -/
def smoothedSeries (window : ℕ) (cases : List (Option ℚ)) : List ℚ :=
  rollingMeanCentered window (cases.map (fun x => x.getD 0))

/-- One iteration of the loop of `estimate_rt` (`src/rt.py` lines 25–37),
given the kernel `w`, the smoothed series `I` and `kmax`: day `0` is
`np.nan` (`none`); otherwise `Ipast = I[max(0, t-k_max):t]`
(as `drop`/`take` with truncated subtraction), `w_trunc = w[-len(Ipast):]`,
`denom = Σ w_trunc * Ipast[::-1]`, `np.nan` when `denom ≤ 1e-8`, else
`I[t] / denom`. -/
def rtValue (w I : List ℚ) (kmax t : ℕ) : Option ℚ :=
  if t = 0 then none
  else
    let Ipast := (I.drop (t - kmax)).take (t - (t - kmax))
    let wTrunc := w.drop (w.length - Ipast.length)
    let denom := ((wTrunc.zip Ipast.reverse).map (fun p => p.1 * p.2)).sum
    if denom ≤ 1 / 100000000 then none
    else some (I.getD t 0 / denom)

/-- `estimate_rt` from `src/rt.py`.  Input: the case series in date order
(`sort_values('date')` is the identity on date-ordered input), each entry
optional (`fillna(0.0)` maps missing to `0`).  `window < 1` makes pandas
`rolling(window, min_periods=1, …)` raise a `ValueError`
(`min_periods 1 must be <= window 0`, resp. `window must be an integer 0
or greater`), modelled as `.error`; otherwise the estimator never fails.
The R_t series holds `none` for undefined entries (`np.nan`). -/
def estimate_rt (cdf : ℕ → ℚ) (serial_interval : ℚ) (window : ℤ)
    (cases : List (Option ℚ)) : Except String (List (Option ℚ)) :=
  if window < 1 then
    .error "ValueError: rolling window must be a positive integer"
  else
    .ok ((List.range cases.length).map
      (rtValue (discrete_gamma_pmf cdf (kmaxOf serial_interval))
        (smoothedSeries window.toNat cases) (kmaxOf serial_interval)))

/-- Result record of `analyze_intervention_impact` (`src/analysis.py`);
the `dates` key (a pure reformatting of the input dates) is omitted. -/
structure InterventionResult where
  original_cases : List ℚ
  intervention_cases : List ℚ
deriving DecidableEq, Repr

/-- `analyze_intervention_impact` from `src/analysis.py`: a centered 7-day
rolling mean (`min_periods=1`) of the cases, then
`intervention = (smoothed * (1 - effectiveness)).clip(lower=0)`.  The
returned `original_cases` is the smoothed series. -/
def analyze_intervention_impact (cases : List ℚ) (effectiveness : ℚ) :
    InterventionResult :=
  let smoothed := rollingMeanCentered 7 cases
  { original_cases := smoothed
    intervention_cases := smoothed.map (fun x => max (x * (1 - effectiveness)) 0) }

/-- One SEIR compartment state `(S, E, I, R)` (`src/seir.py`). -/
structure SEIRState where
  S : ℚ
  E : ℚ
  I : ℚ
  R : ℚ
deriving DecidableEq, Repr

/-- `seir_ode` from `src/seir.py`: the vector field
`(−βSI/N, βSI/N − σE, σE − γI, γI)` (the time argument is unused in the
source and omitted). -/
def seir_ode (N beta sigma gamma : ℚ) (y : SEIRState) : SEIRState :=
  { S := -beta * y.S * y.I / N
    E := beta * y.S * y.I / N - sigma * y.E
    I := sigma * y.E - gamma * y.I
    R := gamma * y.I }

/-- `np.maximum(0.0, np.diff(I, prepend=I[0]))` from `src/seir.py` line 19:
entry `j` is `max 0 ((I[0] :: I)[j+1] − (I[0] :: I)[j])`, that is `0` at
`j = 0` and `max 0 (I[j] − I[j−1])` afterwards. -/
def newCasesProxy (I : List ℚ) : List ℚ :=
  (List.zipWith (fun a b => a - b) I (I.headD 0 :: I)).map (fun d => max 0 d)

/-- Trajectory record returned by `simulate_seir` (`src/seir.py`); the
`date` key (today plus `t` days, display only) is omitted. -/
structure SEIRResult where
  S : List ℚ
  E : List ℚ
  I : List ℚ
  R : List ℚ
  new_cases_proxy : List ℚ
  t : List ℕ
deriving DecidableEq, Repr

/-- `simulate_seir` from `src/seir.py`.  The scipy integrator `odeint` is
external third-party code, abstracted as the parameter `odeintF`: given the
vector field, the initial state and the requested time points it returns
the integrated states (one per requested time point, the first being the
initial state — scipy's documented contract, taken as a hypothesis in the
theorems).  Note the source performs no validation of the inputs: `S0`
is simply `N − E0 − I0 − R0`. -/
def simulate_seir
    (odeintF : (SEIRState → SEIRState) → SEIRState → List ℕ → List SEIRState)
    (N E0 I0 R0 : ℤ) (beta sigma gamma : ℚ) (days : ℕ) : SEIRResult :=
  let S0 : ℚ := (N : ℚ) - (E0 : ℚ) - (I0 : ℚ) - (R0 : ℚ)
  let y0 : SEIRState := ⟨S0, (E0 : ℚ), (I0 : ℚ), (R0 : ℚ)⟩
  let ts := List.range (days + 1)
  let ret := odeintF (seir_ode (N : ℚ) beta sigma gamma) y0 ts
  { S := ret.map (·.S)
    E := ret.map (·.E)
    I := ret.map (·.I)
    R := ret.map (·.R)
    new_cases_proxy := newCasesProxy (ret.map (·.I))
    t := ts }

/-- A concrete integrator satisfying scipy `odeint`'s structural contract
(one output row per requested time point, the first row being the initial
state): explicit Euler with unit step between consecutive integer time
points, used to instantiate witnesses. -/
def eulerOdeint (f : SEIRState → SEIRState) (y0 : SEIRState)
    (ts : List ℕ) : List SEIRState :=
  let step : SEIRState → SEIRState := fun y =>
    ⟨y.S + (f y).S, y.E + (f y).E, y.I + (f y).I, y.R + (f y).R⟩
  (List.range ts.length).map (fun k => step^[k] y0)

/-- One row of the Prophet in-sample/future prediction frame
(`yhat`, `yhat_lower`, `yhat_upper`); the Prophet model producing it is
external third-party code. -/
structure ProphetRow where
  yhat : ℚ
  yhat_lower : ℚ
  yhat_upper : ℚ
deriving DecidableEq, Repr

/-- One row of the forecast frame returned by `fit_forecast`
(`src/forecast.py` lines 37–42 and 102–107): columns
`mean`, `lower_95`, `upper_95` (the `date` column is omitted). -/
structure ForecastRow where
  mean : ℚ
  lower_95 : ℚ
  upper_95 : ℚ
deriving DecidableEq, Repr

/-- Value columns of the forecast frame built by `fit_forecast`
(`src/forecast.py` lines 37–39: Prophet's `ds, yhat, yhat_lower,
yhat_upper` renamed; lines 102–107: identical columns in the fallback). -/
def forecast_frame_columns : List String :=
  ["date", "mean", "lower_95", "upper_95"]

/-- The least-squares slope of `np.polyfit(x, y, 1)` for `x = 0, …, m−1`
(`src/forecast.py` line 88), in exact arithmetic:
`(m·Σxy − Σx·Σy) / (m·Σx² − (Σx)²)`. -/
def polyfitSlope (ys : List ℚ) : ℚ :=
  let m : ℚ := (ys.length : ℚ)
  let xs : List ℚ := (List.range ys.length).map (fun (i : ℕ) => (i : ℚ))
  let sx := xs.sum
  let sy := ys.sum
  let sxy := (List.zipWith (fun a b => a * b) xs ys).sum
  let sxx := (xs.map (fun x => x * x)).sum
  (m * sxy - sx * sy) / (m * sxx - sx * sx)

/-- `_simple_forecast` from `src/forecast.py`: linear trend over the last
30 observations (slope from `np.polyfit`, intercept the last observed
value; degenerate series get slope 0 and the first/zero intercept),
forecast `max(0, intercept + slope·(i+1))` for `i = 0, …, horizon−1`,
bounds `max(0, 0.8·v)` and `1.2·v`.  The seasonality frame (a list of
formatted dates) is omitted. -/
def simple_forecast (cases : List ℚ) (horizon : ℕ) : List ForecastRow :=
  let recent := cases.drop (cases.length - 30)
  let slope := if 1 < recent.length then polyfitSlope recent else 0
  let intercept :=
    if 1 < recent.length then recent.getLastD 0
    else if 0 < recent.length then recent.headD 0 else 0
  (List.range horizon).map (fun (i : ℕ) =>
    let v := max 0 (intercept + slope * ((i : ℚ) + 1))
    { mean := v, lower_95 := max 0 (v * (8 / 10)), upper_95 := v * (12 / 10) })

/-- `fit_forecast` from `src/forecast.py`.  The Prophet library is external
third-party code, abstracted: `holidaysOutcome` is the outcome of
`model.add_country_holidays` — the source wraps that single call in
`try/except` and continues either way, so the result cannot depend on it;
`fitPredict` is the outcome of `model.fit` followed by `model.predict`
over the history-plus-horizon future frame — an exception raised by
`model.fit` is NOT caught by the source and propagates (`.error`).  When
the Prophet import failed (`PROPHET_AVAILABLE = False`) the fallback
`_simple_forecast` is used.  On success the three value columns are
clipped to `≥ 0` and the last `horizon` rows are returned
(`forecast_df.tail(horizon)`). -/
def clipRow (r : ProphetRow) : ForecastRow :=
  { mean := max r.yhat 0
    lower_95 := max r.yhat_lower 0
    upper_95 := max r.yhat_upper 0 }

def fit_forecast (prophetAvailable : Bool)
    (holidaysOutcome : Except String Unit)
    (fitPredict : Except String (List ProphetRow))
    (cases : List ℚ) (horizon : ℕ) : Except String (List ForecastRow) :=
  if prophetAvailable = false then
    .ok (simple_forecast cases horizon)
  else
    match fitPredict with
    | .error e => .error e
    | .ok rows =>
      .ok ((rows.map clipRow).drop ((rows.map clipRow).length - horizon))

/-- The renewal-equation denominator in the form the specification states
it: for day `t`, with `m = min t k_max` available lags, the sum over
`j = 0, …, m−1` of the `(k_max − m + j)`-th kernel weight (the matching
suffix of the kernel, in lag order) times the smoothed incidence
`I[t − 1 − j]`. -/
def renewalDenom (cdf : ℕ → ℚ) (serial_interval : ℚ) (window : ℕ)
    (cases : List (Option ℚ)) (t : ℕ) : ℚ :=
  let I := smoothedSeries window cases
  let kmax := kmaxOf serial_interval
  let w := discrete_gamma_pmf cdf kmax
  let m := min t kmax
  ∑ j in Finset.range m, w.getD (kmax - m + j) 0 * I.getD (t - 1 - j) 0

/-- A concrete stand-in for the discretized gamma CDF, used to instantiate
witnesses and counterexamples: the CDF of the uniform distribution on
`[0, 20]`, evaluated at integers. -/
def linCdf (s : ℕ) : ℚ := min (s : ℚ) 20 / 20

/-- All six series of a SEIR trajectory have `n` entries. -/
def trajLens (r : SEIRResult) (n : ℕ) : Prop :=
  r.S.length = n ∧ r.E.length = n ∧ r.I.length = n ∧ r.R.length = n ∧
  r.new_cases_proxy.length = n ∧ r.t.length = n

/-- The new-case proxy of a SEIR trajectory is `0` on day 0 and
`max 0 (I[k] − I[k−1])` on days `1, …, days`. -/
def proxySpec (r : SEIRResult) (days : ℕ) : Prop :=
  r.new_cases_proxy.getD 0 0 = 0 ∧
  ∀ k, 1 ≤ k → k ≤ days →
    r.new_cases_proxy.getD k 0 = max 0 (r.I.getD k 0 - r.I.getD (k - 1) 0)

section Helpers

theorem sum_map_div (l : List ℚ) (s : ℚ) :
    (l.map (fun x => x / s)).sum = l.sum / s := by
  induction l with
  | nil => simp
  | cons a t ih => simp [ih, add_div]

theorem getD_drop (l : List ℚ) (i j : ℕ) :
    (l.drop i).getD j 0 = l.getD (i + j) 0 := by
  simp [List.getD_eq_getElem?_getD, List.getElem?_drop]

theorem getD_take_lt (l : List ℚ) (c j : ℕ) (h : j < c) :
    (l.take c).getD j 0 = l.getD j 0 := by
  simp [List.getD_eq_getElem?_getD, List.getElem?_take, h]

theorem getD_reverse_lt (l : List ℚ) (j : ℕ) (h : j < l.length) :
    l.reverse.getD j 0 = l.getD (l.length - 1 - j) 0 := by
  simp [List.getD_eq_getElem?_getD, List.getElem?_reverse h]

theorem getD_of_forall_nonneg (l : List ℚ) (t : ℕ)
    (h : ∀ x ∈ l, 0 ≤ x) : 0 ≤ l.getD t 0 := by
  rw [List.getD_eq_getElem?_getD]
  cases hx : l[t]? with
  | none => simp
  | some v => simpa using h v (List.getElem?_mem hx)

/-- Elementwise-product sum of two zipped lists as an indexed sum. -/
theorem zip_mul_sum (a b : List ℚ) :
    ((a.zip b).map (fun p => p.1 * p.2)).sum
      = ∑ j in Finset.range (min a.length b.length),
          a.getD j 0 * b.getD j 0 := by
  induction a generalizing b with
  | nil => simp
  | cons x xs ih =>
    cases b with
    | nil => simp
    | cons y ys =>
      simp only [List.zip_cons_cons, List.map_cons, List.sum_cons, ih ys,
        List.length_cons]
      rw [Nat.succ_min_succ, Finset.sum_range_succ']
      simp [List.getD]
      ring

theorem rollingMeanCentered_length (w : ℕ) (xs : List ℚ) :
    (rollingMeanCentered w xs).length = xs.length := by
  simp [rollingMeanCentered]

theorem rollingMeanCentered_nonneg (w : ℕ) (xs : List ℚ)
    (h : ∀ x ∈ xs, 0 ≤ x) :
    ∀ y ∈ rollingMeanCentered w xs, 0 ≤ y := by
  intro y hy
  simp only [rollingMeanCentered, List.mem_map, List.mem_range] at hy
  obtain ⟨t, -, rfl⟩ := hy
  refine div_nonneg (List.sum_nonneg ?_) (by positivity)
  intro x hx
  exact h x (List.mem_of_mem_drop (List.mem_of_mem_take hx))

theorem rawGammaPmf_length (cdf : ℕ → ℚ) (kmax : ℕ) :
    (rawGammaPmf cdf kmax).length = kmax := by
  simp [rawGammaPmf]

theorem rawGammaPmf_nonneg (cdf : ℕ → ℚ) (kmax : ℕ) :
    ∀ x ∈ rawGammaPmf cdf kmax, 0 ≤ x := by
  intro x hx
  obtain ⟨i, -, rfl⟩ := List.mem_map.mp hx
  exact le_max_right _ _

theorem discrete_gamma_pmf_length (cdf : ℕ → ℚ) (kmax : ℕ) :
    (discrete_gamma_pmf cdf kmax).length = kmax := by
  unfold discrete_gamma_pmf
  split <;> simp [rawGammaPmf_length]

theorem discrete_gamma_pmf_nonneg (cdf : ℕ → ℚ) (kmax : ℕ) :
    ∀ x ∈ discrete_gamma_pmf cdf kmax, 0 ≤ x := by
  intro x hx
  unfold discrete_gamma_pmf at hx
  split at hx
  case isTrue hpos =>
    obtain ⟨y, hy, rfl⟩ := List.mem_map.mp hx
    exact div_nonneg (rawGammaPmf_nonneg cdf kmax y hy) hpos.le
  case isFalse =>
    exact rawGammaPmf_nonneg cdf kmax x hx

theorem all_zero_of_sum_nonpos (l : List ℚ) (hn : ∀ x ∈ l, 0 ≤ x)
    (hs : l.sum ≤ 0) : ∀ x ∈ l, x = 0 := by
  induction l with
  | nil => simp
  | cons a t ih =>
    have ha : 0 ≤ a := hn a (by simp)
    have ht : 0 ≤ t.sum := List.sum_nonneg (fun x hx => hn x (by simp [hx]))
    simp only [List.sum_cons] at hs
    intro x hx
    rcases List.mem_cons.mp hx with rfl | hx'
    · linarith
    · exact ih (fun y hy => hn y (by simp [hy])) (by linarith) x hx'

theorem getD_map_lt (f : ℚ → ℚ) (l : List ℚ) (k : ℕ) (h : k < l.length) :
    (l.map f).getD k 0 = f (l.getD k 0) := by
  simp [List.getD_eq_getElem?_getD, List.getElem?_map,
    List.getElem?_eq_getElem h]

theorem getD_zipWith_lt (f : ℚ → ℚ → ℚ) (as bs : List ℚ) (k : ℕ)
    (ha : k < as.length) (hb : k < bs.length) :
    (List.zipWith f as bs).getD k 0 = f (as.getD k 0) (bs.getD k 0) := by
  induction as generalizing bs k with
  | nil => simp at ha
  | cons a as ih =>
    cases bs with
    | nil => simp at hb
    | cons b bs =>
      cases k with
      | zero => simp [List.getD]
      | succ k =>
        simp only [List.zipWith_cons_cons]
        have : (List.zipWith f as bs).getD k 0 = f (as.getD k 0) (bs.getD k 0) :=
          ih bs k (by simpa using ha) (by simpa using hb)
        simpa [List.getD] using this

theorem eq_singleton_of_length_head {α : Type} (l : List α) (y : α)
    (h1 : l.length = 1) (h2 : l.head? = some y) : l = [y] := by
  cases l with
  | nil => simp at h2
  | cons a t =>
    cases t with
    | nil => simp at h2; simp [h2]
    | cons b u => simp at h1

theorem kmaxOf_pos (si : ℚ) : 1 ≤ kmaxOf si := by
  simp [kmaxOf]

theorem smoothedSeries_length (window : ℕ) (cases : List (Option ℚ)) :
    (smoothedSeries window cases).length = cases.length := by
  simp [smoothedSeries, rollingMeanCentered_length]

theorem smoothedSeries_nonneg (window : ℕ) (cases : List (Option ℚ))
    (hc : ∀ x ∈ cases, 0 ≤ x.getD 0) :
    ∀ y ∈ smoothedSeries window cases, 0 ≤ y := by
  refine rollingMeanCentered_nonneg window _ ?_
  intro x hx
  obtain ⟨o, ho, rfl⟩ := List.mem_map.mp hx
  exact hc o ho

theorem eulerOdeint_length (f : SEIRState → SEIRState) (y0 : SEIRState)
    (ts : List ℕ) : (eulerOdeint f y0 ts).length = ts.length := by
  simp [eulerOdeint]

theorem eulerOdeint_head (f : SEIRState → SEIRState) (y0 : SEIRState)
    (ts : List ℕ) (h : ts ≠ []) : (eulerOdeint f y0 ts).head? = some y0 := by
  cases ts with
  | nil => exact absurd rfl h
  | cons a t =>
    simp [eulerOdeint, List.range_succ_eq_map]

theorem kmaxOf_fifth : kmaxOf (1 / 5) = 1 := by
  norm_num [kmaxOf, pytrunc]

theorem pmf_small : discrete_gamma_pmf linCdf 1 = [1] := by
  norm_num [discrete_gamma_pmf, rawGammaPmf, linCdf, List.range_succ]

theorem smoothed_small : smoothedSeries 7 [some 100, some 120] = [110, 110] := by
  norm_num [smoothedSeries, rollingMeanCentered, List.range_succ]

theorem rt_small_eval :
    estimate_rt linCdf (1 / 5) 7 [some 100, some 120] = .ok [none, some 1] := by
  simp only [estimate_rt, if_neg (by norm_num : ¬ (7 : ℤ) < 1), kmaxOf_fifth,
    pmf_small, show (7 : ℤ).toNat = 7 from rfl]
  norm_num [smoothed_small, rtValue, List.range_succ]

end Helpers


/-- C2 (counterexample): at `mean_interval = 3.5` the kernel built by the
estimator has length `max(1, int(5 × 3.5)) = 17`, not
`max(1, round(5 × 3.5)) = 18`: the source truncates (`int`), it does not
round. -/
theorem kernel_length_not_round :
    (discrete_gamma_pmf linCdf (kmaxOf (7 / 2))).length
      ≠ max 1 (round ((5 : ℚ) * (7 / 2))).toNat := by
  have h1 : kmaxOf (7 / 2) = 17 := by
    unfold kmaxOf pytrunc
    rw [if_pos (by norm_num : (0:ℚ) ≤ 5 * (7 / 2)),
      show Int.floor ((5 : ℚ) * (7 / 2)) = 17 by norm_num]
    rfl
  have h2 : round ((5 : ℚ) * (7 / 2)) = 18 := by norm_num [round_eq]
  rw [discrete_gamma_pmf_length, h1, h2]
  decide

/-- C2 (amended): for every CDF and every `mean_interval > 0`, the kernel
built by the estimator has length `max(1, ⌊5 × mean_interval⌋)`
(truncation rather than rounding), every entry is non-negative, and the
entries sum to 1 unless the clipped unnormalized masses sum to zero, in
which case the kernel is all-zero. -/
theorem kernel_normalized_or_zero (cdf : ℕ → ℚ) (si : ℚ) (hsi : 0 < si) :
    (discrete_gamma_pmf cdf (kmaxOf si)).length
        = max 1 (Int.floor (5 * si)).toNat ∧
    (∀ x ∈ discrete_gamma_pmf cdf (kmaxOf si), 0 ≤ x) ∧
    ((discrete_gamma_pmf cdf (kmaxOf si)).sum = 1 ∨
      ∀ x ∈ discrete_gamma_pmf cdf (kmaxOf si), x = 0) := by
  refine ⟨?_, discrete_gamma_pmf_nonneg cdf (kmaxOf si), ?_⟩
  · rw [discrete_gamma_pmf_length]
    unfold kmaxOf pytrunc
    rw [if_pos (by linarith)]
  · unfold discrete_gamma_pmf
    split
    case isTrue hpos =>
      left
      rw [sum_map_div, div_self (ne_of_gt hpos)]
    case isFalse hpos =>
      right
      exact all_zero_of_sum_nonpos _ (rawGammaPmf_nonneg cdf (kmaxOf si))
        (le_of_not_lt hpos)

/-- C2 (witness): the amended kernel contract instantiated at
`mean_interval = 4` with the uniform stand-in CDF. -/
theorem kernel_normalized_or_zero_witness :
    (0 : ℚ) < 4 ∧
    ((discrete_gamma_pmf linCdf (kmaxOf 4)).length
        = max 1 (Int.floor ((5 : ℚ) * 4)).toNat ∧
    (∀ x ∈ discrete_gamma_pmf linCdf (kmaxOf 4), 0 ≤ x) ∧
    ((discrete_gamma_pmf linCdf (kmaxOf 4)).sum = 1 ∨
      ∀ x ∈ discrete_gamma_pmf linCdf (kmaxOf 4), x = 0)) :=
  ⟨by norm_num, kernel_normalized_or_zero linCdf 4 (by norm_num)⟩

/-- C3: whenever `estimate_rt` returns an R_t series, that series has
exactly one entry per input entry, and on non-empty input the entry for
day 0 is undefined (`none`). -/
theorem estimate_rt_output_shape (cdf : ℕ → ℚ) (si : ℚ) (window : ℤ)
    (cases : List (Option ℚ)) (out : List (Option ℚ))
    (hok : estimate_rt cdf si window cases = .ok out) :
    out.length = cases.length ∧
    (0 < cases.length → out.getD 0 none = none) := by
  unfold estimate_rt at hok
  split at hok
  · exact absurd hok (by simp)
  · rw [Except.ok.injEq] at hok
    subst hok
    refine ⟨by simp, fun hn => ?_⟩
    rw [List.getD_eq_getElem?_getD, List.getElem?_map, List.getElem?_range hn]
    simp [rtValue]

/-- C3 (witness): the shape contract at a concrete two-day series. -/
theorem estimate_rt_output_shape_witness :
    ([none, some (1 : ℚ)] : List (Option ℚ)).length
        = ([some (100 : ℚ), some 120] : List (Option ℚ)).length ∧
    (0 < ([some (100 : ℚ), some 120] : List (Option ℚ)).length →
      ([none, some (1 : ℚ)] : List (Option ℚ)).getD 0 none = none) :=
  estimate_rt_output_shape linCdf (1 / 5) 7 [some 100, some 120]
    [none, some 1] rt_small_eval

/-- C8: for every non-negative input series and `effectiveness ∈ [0, 1]`,
the intervention counterfactual is pointwise at most the returned
(smoothed) original series, both have the input's length, effectiveness 0
reproduces the smoothed original exactly, and effectiveness 1 yields an
all-zero counterfactual. -/
theorem intervention_counterfactual_bounds (cases : List ℚ) (eff : ℚ)
    (hc : ∀ x ∈ cases, 0 ≤ x) (h0 : 0 ≤ eff) (h1 : eff ≤ 1) :
    (analyze_intervention_impact cases eff).original_cases.length
        = cases.length ∧
    (analyze_intervention_impact cases eff).intervention_cases.length
        = cases.length ∧
    (∀ k < cases.length,
      (analyze_intervention_impact cases eff).intervention_cases.getD k 0
        ≤ (analyze_intervention_impact cases eff).original_cases.getD k 0) ∧
    (eff = 0 → (analyze_intervention_impact cases eff).intervention_cases
        = (analyze_intervention_impact cases eff).original_cases) ∧
    (eff = 1 → ∀ x ∈ (analyze_intervention_impact cases eff).intervention_cases,
        x = 0) := by
  have hs : ∀ y ∈ rollingMeanCentered 7 cases, 0 ≤ y :=
    rollingMeanCentered_nonneg 7 cases hc
  have hlen : (rollingMeanCentered 7 cases).length = cases.length :=
    rollingMeanCentered_length 7 cases
  refine ⟨by simp [analyze_intervention_impact, hlen],
          by simp [analyze_intervention_impact, hlen], ?_, ?_, ?_⟩
  · intro k hk
    have hk' : k < (rollingMeanCentered 7 cases).length := by rw [hlen]; exact hk
    simp only [analyze_intervention_impact]
    rw [getD_map_lt _ _ _ hk']
    have hsk : 0 ≤ (rollingMeanCentered 7 cases).getD k 0 :=
      getD_of_forall_nonneg _ _ hs
    have : (rollingMeanCentered 7 cases).getD k 0 * (1 - eff)
        ≤ (rollingMeanCentered 7 cases).getD k 0 := by nlinarith
    exact max_le this hsk
  · intro he
    subst he
    simp only [analyze_intervention_impact]
    have : ∀ x ∈ rollingMeanCentered 7 cases,
        max (x * (1 - 0)) 0 = id x := by
      intro x hx
      simp [max_eq_left (hs x hx)]
    rw [List.map_congr_left this, List.map_id]
  · intro he x hx
    subst he
    simp only [analyze_intervention_impact] at hx
    obtain ⟨y, -, rfl⟩ := List.mem_map.mp hx
    simp

/-- C8 (witness): the intervention contract at the series `[1, 2, 3]`
with effectiveness 1/2. -/
theorem intervention_counterfactual_bounds_witness :
    (analyze_intervention_impact [1, 2, 3] (1 / 2)).original_cases.length
        = ([1, 2, 3] : List ℚ).length ∧
    (analyze_intervention_impact [1, 2, 3] (1 / 2)).intervention_cases.length
        = ([1, 2, 3] : List ℚ).length ∧
    (∀ k < ([1, 2, 3] : List ℚ).length,
      (analyze_intervention_impact [1, 2, 3] (1 / 2)).intervention_cases.getD k 0
        ≤ (analyze_intervention_impact [1, 2, 3] (1 / 2)).original_cases.getD k 0) ∧
    ((1 : ℚ) / 2 = 0 →
      (analyze_intervention_impact [1, 2, 3] (1 / 2)).intervention_cases
        = (analyze_intervention_impact [1, 2, 3] (1 / 2)).original_cases) ∧
    ((1 : ℚ) / 2 = 1 →
      ∀ x ∈ (analyze_intervention_impact [1, 2, 3] (1 / 2)).intervention_cases,
        x = 0) :=
  intervention_counterfactual_bounds [1, 2, 3] (1 / 2)
    (by intro x hx; simp at hx; rcases hx with rfl | rfl | rfl <;> norm_num)
    (by norm_num) (by norm_num)


theorem newCasesProxy_length (I : List ℚ) :
    (newCasesProxy I).length = I.length := by
  simp [newCasesProxy]

theorem newCasesProxy_zero (I : List ℚ) (h : 0 < I.length) :
    (newCasesProxy I).getD 0 0 = 0 := by
  cases I with
  | nil => simp at h
  | cons a t => simp [newCasesProxy, List.getD]

theorem newCasesProxy_succ (I : List ℚ) (k : ℕ) (h : k + 1 < I.length) :
    (newCasesProxy I).getD (k + 1) 0
      = max 0 (I.getD (k + 1) 0 - I.getD k 0) := by
  unfold newCasesProxy
  have hzl : (List.zipWith (fun a b => a - b) I (I.headD 0 :: I)).length
      = I.length := by
    simp
  rw [getD_map_lt _ _ _ (by rw [hzl]; exact h)]
  rw [getD_zipWith_lt _ _ _ _ (by omega) (by simp; omega)]
  simp [List.getD]

theorem simulate_seir_zero_days
    (odeintF : (SEIRState → SEIRState) → SEIRState → List ℕ → List SEIRState)
    (hlen : ∀ f y ts, (odeintF f y ts).length = ts.length)
    (hfirst : ∀ f y ts, ts ≠ [] → (odeintF f y ts).head? = some y)
    (N E0 I0 R0 : ℤ) (beta sigma gamma : ℚ) :
    (simulate_seir odeintF N E0 I0 R0 beta sigma gamma 0).S
        = [(N : ℚ) - E0 - I0 - R0] ∧
    (simulate_seir odeintF N E0 I0 R0 beta sigma gamma 0).E = [(E0 : ℚ)] ∧
    (simulate_seir odeintF N E0 I0 R0 beta sigma gamma 0).I = [(I0 : ℚ)] ∧
    (simulate_seir odeintF N E0 I0 R0 beta sigma gamma 0).R = [(R0 : ℚ)] ∧
    (simulate_seir odeintF N E0 I0 R0 beta sigma gamma 0).new_cases_proxy
        = [0] ∧
    (simulate_seir odeintF N E0 I0 R0 beta sigma gamma 0).t = [0] := by
  have hr : odeintF (seir_ode (N : ℚ) beta sigma gamma)
      ⟨(N : ℚ) - E0 - I0 - R0, (E0 : ℚ), (I0 : ℚ), (R0 : ℚ)⟩ (List.range 1)
      = [⟨(N : ℚ) - E0 - I0 - R0, (E0 : ℚ), (I0 : ℚ), (R0 : ℚ)⟩] :=
    eq_singleton_of_length_head _ _ (by rw [hlen]; rfl)
      (hfirst _ _ _ (by simp))
  simp only [simulate_seir, Nat.zero_add, hr]
  refine ⟨rfl, rfl, rfl, rfl, ?_, rfl⟩
  simp [newCasesProxy]

/-- C6 (counterexample): with `N = 0, E0 = 1, I0 = 0, R0 = 0` the implied
`S0 = N − E0 − I0 − R0 = −1` is negative, yet `simulate_seir` raises no
input-validation error: it computes and returns a trajectory whose `S`
series starts at `−1`. -/
theorem simulate_seir_accepts_negative_S0 :
    ((0 : ℤ) - 1 - 0 - 0 < 0) ∧
    (simulate_seir eulerOdeint 0 1 0 0 (3 / 10) (1 / 5) (1 / 10) 0).S
      = [-1] := by
  refine ⟨by decide, ?_⟩
  obtain ⟨hS, -, -, -, -, -⟩ :=
    simulate_seir_zero_days eulerOdeint eulerOdeint_length eulerOdeint_head
      0 1 0 0 (3 / 10) (1 / 5) (1 / 10)
  rw [hS]
  norm_num

/-- C6 (amended): `simulate_seir` performs no validation of the implied
`S0`: for every input with `N − E0 − I0 − R0 < 0` and every integrator
satisfying the `odeint` contract, a full trajectory of `days + 1` points
is still computed, its `S` series starting at the negative
`S0 = N − E0 − I0 − R0`. -/
theorem simulate_seir_no_validation
    (odeintF : (SEIRState → SEIRState) → SEIRState → List ℕ → List SEIRState)
    (hlen : ∀ f y ts, (odeintF f y ts).length = ts.length)
    (hfirst : ∀ f y ts, ts ≠ [] → (odeintF f y ts).head? = some y)
    (N E0 I0 R0 : ℤ) (beta sigma gamma : ℚ) (days : ℕ)
    (hneg : N - E0 - I0 - R0 < 0) :
    (simulate_seir odeintF N E0 I0 R0 beta sigma gamma days).S.length
        = days + 1 ∧
    (simulate_seir odeintF N E0 I0 R0 beta sigma gamma days).S.head?
        = some ((N : ℚ) - E0 - I0 - R0) := by
  simp only [simulate_seir]
  constructor
  · simp [hlen]
  · rw [List.head?_map, hfirst _ _ _ (by simp)]
    rfl

/-- C6 (witness): the amended no-validation behaviour at the concrete
negative-`S0` input `N = 0, E0 = 1`. -/
theorem simulate_seir_no_validation_witness :
    ((0 : ℤ) - 1 - 0 - 0 < 0) ∧
    ((simulate_seir eulerOdeint 0 1 0 0 (3 / 10) (1 / 5) (1 / 10) 0).S.length
        = 0 + 1 ∧
     (simulate_seir eulerOdeint 0 1 0 0 (3 / 10) (1 / 5) (1 / 10) 0).S.head?
        = some (((0 : ℤ) : ℚ) - ((1 : ℤ) : ℚ) - ((0 : ℤ) : ℚ) - ((0 : ℤ) : ℚ))) :=
  ⟨by decide,
   simulate_seir_no_validation eulerOdeint eulerOdeint_length eulerOdeint_head
     0 1 0 0 (3 / 10) (1 / 5) (1 / 10) 0 (by decide)⟩

/-- C7: for every parameter set and every integrator satisfying the
`odeint` contract, the trajectory has exactly `days + 1` time points in
every series, `new_cases_proxy[0] = 0` and
`new_cases_proxy[k] = max 0 (I[k] − I[k−1])` for `1 ≤ k ≤ days`; and in
the concrete scenario `N=1000, E0=10, I0=5, R0=0, β=0.3, σ=0.2, γ=0.1,
days=0` the trajectory is the single point of initial conditions
`(S, E, I, R) = (985, 10, 5, 0)` with zero proxy. -/
theorem simulate_seir_trajectory_shape
    (odeintF : (SEIRState → SEIRState) → SEIRState → List ℕ → List SEIRState)
    (hlen : ∀ f y ts, (odeintF f y ts).length = ts.length)
    (hfirst : ∀ f y ts, ts ≠ [] → (odeintF f y ts).head? = some y)
    (N E0 I0 R0 : ℤ) (beta sigma gamma : ℚ) (days : ℕ) :
    trajLens (simulate_seir odeintF N E0 I0 R0 beta sigma gamma days)
        (days + 1) ∧
    proxySpec (simulate_seir odeintF N E0 I0 R0 beta sigma gamma days) days ∧
    ((simulate_seir odeintF 1000 10 5 0 (3 / 10) (1 / 5) (1 / 10) 0).S
        = [985] ∧
     (simulate_seir odeintF 1000 10 5 0 (3 / 10) (1 / 5) (1 / 10) 0).E
        = [10] ∧
     (simulate_seir odeintF 1000 10 5 0 (3 / 10) (1 / 5) (1 / 10) 0).I
        = [5] ∧
     (simulate_seir odeintF 1000 10 5 0 (3 / 10) (1 / 5) (1 / 10) 0).R
        = [0] ∧
     (simulate_seir odeintF 1000 10 5 0 (3 / 10) (1 / 5) (1 / 10) 0).new_cases_proxy
        = [0] ∧
     (simulate_seir odeintF 1000 10 5 0 (3 / 10) (1 / 5) (1 / 10) 0).t
        = [0]) := by
  refine ⟨?_, ⟨?_, ?_⟩, ?_⟩
  · refine ⟨?_, ?_, ?_, ?_, ?_, ?_⟩ <;>
      simp [simulate_seir, trajLens, hlen, newCasesProxy_length]
  · have hI : ((simulate_seir odeintF N E0 I0 R0 beta sigma gamma days).I).length
        = days + 1 := by
      simp [simulate_seir, hlen]
    simp only [simulate_seir] at hI ⊢
    exact newCasesProxy_zero _ (by rw [hI]; omega)
  · intro k hk1 hk2
    obtain ⟨j, rfl⟩ : ∃ j, k = j + 1 := ⟨k - 1, by omega⟩
    have hI : ((simulate_seir odeintF N E0 I0 R0 beta sigma gamma days).I).length
        = days + 1 := by
      simp [simulate_seir, hlen]
    simp only [simulate_seir] at hI ⊢
    rw [newCasesProxy_succ _ _ (by rw [hI]; omega)]
    simp
  · have h := simulate_seir_zero_days odeintF hlen hfirst
      1000 10 5 0 (3 / 10) (1 / 5) (1 / 10)
    obtain ⟨hS, hE, hI, hR, hP, hT⟩ := h
    refine ⟨?_, ?_, ?_, ?_, hP, hT⟩
    · rw [hS]; norm_num
    · rw [hE]; norm_num
    · rw [hI]; norm_num
    · rw [hR]; norm_num

/-- C7 (witness): the trajectory-shape contract instantiated with the
explicit-Euler integrator at the concrete scenario. -/
theorem simulate_seir_trajectory_shape_witness :
    trajLens (simulate_seir eulerOdeint 1000 10 5 0 (3 / 10) (1 / 5) (1 / 10) 0)
        (0 + 1) ∧
    proxySpec (simulate_seir eulerOdeint 1000 10 5 0 (3 / 10) (1 / 5) (1 / 10) 0)
        0 ∧
    ((simulate_seir eulerOdeint 1000 10 5 0 (3 / 10) (1 / 5) (1 / 10) 0).S
        = [985] ∧
     (simulate_seir eulerOdeint 1000 10 5 0 (3 / 10) (1 / 5) (1 / 10) 0).E
        = [10] ∧
     (simulate_seir eulerOdeint 1000 10 5 0 (3 / 10) (1 / 5) (1 / 10) 0).I
        = [5] ∧
     (simulate_seir eulerOdeint 1000 10 5 0 (3 / 10) (1 / 5) (1 / 10) 0).R
        = [0] ∧
     (simulate_seir eulerOdeint 1000 10 5 0 (3 / 10) (1 / 5) (1 / 10) 0).new_cases_proxy
        = [0] ∧
     (simulate_seir eulerOdeint 1000 10 5 0 (3 / 10) (1 / 5) (1 / 10) 0).t
        = [0]) :=
  simulate_seir_trajectory_shape eulerOdeint eulerOdeint_length
    eulerOdeint_head 1000 10 5 0 (3 / 10) (1 / 5) (1 / 10) 0


/-- C4 (counterexample): with Prophet available, an exception raised by
`model.fit` is not caught by `fit_forecast` — it propagates, so the
forecaster raises and no fallback is used. -/
theorem fit_forecast_propagates_fit_error :
    fit_forecast true (.ok ()) (.error "Prophet fit failed") [1] 3
      = .error "Prophet fit failed" := rfl

/-- C4 (amended): the forecaster's failure semantics as implemented: when
the Prophet import failed it always returns the linear-trend fallback
(never raising); the outcome of the holiday-addition call is caught and
cannot influence the result; but an exception of `model.fit` propagates
uncaught — the forecaster can raise. -/
theorem fit_forecast_failure_semantics (h h' : Except String Unit)
    (fitPredict : Except String (List ProphetRow)) (cases : List ℚ)
    (horizon : ℕ) :
    fit_forecast false h fitPredict cases horizon
        = .ok (simple_forecast cases horizon) ∧
    (∀ e, fitPredict = .error e →
      fit_forecast true h fitPredict cases horizon = .error e) ∧
    fit_forecast true h fitPredict cases horizon
        = fit_forecast true h' fitPredict cases horizon := by
  refine ⟨rfl, ?_, rfl⟩
  intro e he
  subst he
  rfl

/-- C4 (witness): the amended failure semantics at a concrete failing fit
and two different holiday outcomes. -/
theorem fit_forecast_failure_semantics_witness :
    fit_forecast false (.ok ()) (.error "numerical error") [2] 4
        = .ok (simple_forecast [2] 4) ∧
    (∀ e, (Except.error "numerical error" : Except String (List ProphetRow))
          = .error e →
      fit_forecast true (.ok ()) (.error "numerical error") [2] 4
        = .error e) ∧
    fit_forecast true (.ok ()) (.error "numerical error") [2] 4
        = fit_forecast true (.error "holiday failure")
            (.error "numerical error") [2] 4 :=
  fit_forecast_failure_semantics (.ok ()) (.error "holiday failure")
    (.error "numerical error") [2] 4

/-- C5 (counterexample): the forecast frame built by `fit_forecast`
carries a single confidence level — its value columns are exactly
`mean`, `lower_95`, `upper_95`; no `lower_80`/`upper_80` series exists. -/
theorem forecast_frame_lacks_80_level :
    "lower_80" ∉ forecast_frame_columns ∧
    "upper_80" ∉ forecast_frame_columns := by
  simp [forecast_frame_columns]

theorem simple_row_bounds (v : ℚ) (hv : 0 ≤ v) :
    0 ≤ max 0 (v * (8 / 10)) ∧ max 0 (v * (8 / 10)) ≤ v ∧
    v ≤ v * (12 / 10) := by
  refine ⟨le_max_left _ _, max_le hv (by linarith), by linarith⟩

/-- C5 (amended): dropping the nonexistent 80% level: on both paths the
forecast covers exactly `horizon` steps and every row satisfies
`0 ≤ lower_95 ≤ mean ≤ upper_95` — on the Prophet path provided the raw
Prophet intervals are ordered and the prediction frame covers history
plus horizon. -/
theorem fit_forecast_single_level_bounds (cases : List ℚ) (horizon : ℕ)
    (rows : List ProphetRow) (h : Except String Unit)
    (out : List ForecastRow)
    (hrows : rows.length = cases.length + horizon)
    (hord : ∀ p ∈ rows, p.yhat_lower ≤ p.yhat ∧ p.yhat ≤ p.yhat_upper) :
    ((simple_forecast cases horizon).length = horizon ∧
      ∀ p ∈ simple_forecast cases horizon,
        0 ≤ p.lower_95 ∧ p.lower_95 ≤ p.mean ∧ p.mean ≤ p.upper_95) ∧
    (fit_forecast true h (.ok rows) cases horizon = .ok out →
      out.length = horizon ∧
      ∀ p ∈ out,
        0 ≤ p.lower_95 ∧ p.lower_95 ≤ p.mean ∧ p.mean ≤ p.upper_95) := by
  constructor
  · constructor
    · simp only [simple_forecast, List.length_map, List.length_range]
    · intro p hp
      simp only [simple_forecast, List.mem_map, List.mem_range] at hp
      obtain ⟨i, -, rfl⟩ := hp
      exact simple_row_bounds _ (le_max_left 0 _)
  · intro hok
    have hred : fit_forecast true h (.ok rows) cases horizon
        = .ok ((rows.map clipRow).drop
            ((rows.map clipRow).length - horizon)) := rfl
    rw [hred, Except.ok.injEq] at hok
    subst hok
    constructor
    · rw [List.length_drop, List.length_map, hrows]
      omega
    · intro p hp
      obtain ⟨r, hr, rfl⟩ := List.mem_map.mp (List.mem_of_mem_drop hp)
      obtain ⟨h1, h2⟩ := hord r hr
      exact ⟨le_max_right _ _, max_le_max h1 le_rfl, max_le_max h2 le_rfl⟩

/-- C5 (witness): the single-level bounds at a concrete series, horizon
and ordered Prophet rows. -/
theorem fit_forecast_single_level_bounds_witness :
    (((simple_forecast [1] 2).length = 2 ∧
      ∀ p ∈ simple_forecast [1] 2,
        0 ≤ p.lower_95 ∧ p.lower_95 ≤ p.mean ∧ p.mean ≤ p.upper_95) ∧
    (fit_forecast true (.ok ())
        (.ok [⟨1, 0, 2⟩, ⟨1, 0, 2⟩, ⟨1, 0, 2⟩]) [1] 2
        = .ok [clipRow ⟨1, 0, 2⟩, clipRow ⟨1, 0, 2⟩] →
      ([clipRow ⟨1, 0, 2⟩, clipRow ⟨1, 0, 2⟩] : List ForecastRow).length = 2 ∧
      ∀ p ∈ ([clipRow ⟨1, 0, 2⟩, clipRow ⟨1, 0, 2⟩] : List ForecastRow),
        0 ≤ p.lower_95 ∧ p.lower_95 ≤ p.mean ∧ p.mean ≤ p.upper_95)) :=
  fit_forecast_single_level_bounds [1] 2 [⟨1, 0, 2⟩, ⟨1, 0, 2⟩, ⟨1, 0, 2⟩]
    (.ok ()) [clipRow ⟨1, 0, 2⟩, clipRow ⟨1, 0, 2⟩] (by simp)
    (by intro p hp; simp at hp;
        rcases hp with rfl | rfl | rfl <;> exact ⟨by norm_num, by norm_num⟩)


/-- C9 (counterexample): `smoothing_window = 5` exceeds the length-2
series, yet the estimator neither crashes nor returns an all-undefined
series — it computes normally and day 1 gets a defined estimate; and for
`smoothing_window = 0` (below range) the estimator crashes (pandas
`ValueError`) instead of returning an all-undefined series. -/
theorem estimate_rt_window_violation_defined :
    (([some (100 : ℚ), some 120] : List (Option ℚ)).length < 5) ∧
    estimate_rt linCdf (1 / 5) 5 [some 100, some 120] = .ok [none, some 1] ∧
    estimate_rt linCdf (1 / 5) 0 [some 100, some 120]
      = .error "ValueError: rolling window must be a positive integer" := by
  refine ⟨by norm_num, ?_, by simp [estimate_rt]⟩
  have hs : smoothedSeries 5 [some 100, some 120] = [110, 110] := by
    norm_num [smoothedSeries, rollingMeanCentered, List.range_succ]
  simp only [estimate_rt, if_neg (by norm_num : ¬ (5 : ℤ) < 1), kmaxOf_fifth,
    pmf_small, show (5 : ℤ).toNat = 5 from rfl]
  norm_num [hs, rtValue, List.range_succ]

/-- C9 (amended): the estimator does not special-case an out-of-range
smoothing window: for `window < 1` the underlying pandas rolling call
raises (a crash, not an all-undefined series), and for every
`window ≥ 1` — including windows larger than the series — it proceeds
normally and returns a full-length series. -/
theorem estimate_rt_window_range_behavior (cdf : ℕ → ℚ) (si : ℚ)
    (window : ℤ) (cases : List (Option ℚ)) :
    (window < 1 → estimate_rt cdf si window cases
        = .error "ValueError: rolling window must be a positive integer") ∧
    (1 ≤ window → ∃ out, estimate_rt cdf si window cases = .ok out ∧
        out.length = cases.length) := by
  constructor
  · intro h
    simp [estimate_rt, h]
  · intro h
    unfold estimate_rt
    rw [if_neg (not_lt.mpr h)]
    exact ⟨_, rfl, by simp⟩

/-- C9 (witness): the amended window behaviour at `window = 0`. -/
theorem estimate_rt_window_range_behavior_witness :
    ((0 : ℤ) < 1 → estimate_rt linCdf 4 0 [some 100, some 120]
        = .error "ValueError: rolling window must be a positive integer") ∧
    ((1 : ℤ) ≤ 0 → ∃ out, estimate_rt linCdf 4 0 [some 100, some 120]
        = .ok out ∧
        out.length = ([some (100 : ℚ), some 120] : List (Option ℚ)).length) :=
  estimate_rt_window_range_behavior linCdf 4 0 [some 100, some 120]

/-- C10: for every non-negative input series, every defined entry of the
returned R_t series is non-negative: the division is guarded by
`denom > 1e-8` and the numerator is a smoothed value of non-negative
inputs. -/
theorem estimate_rt_defined_nonneg (cdf : ℕ → ℚ) (si : ℚ) (window : ℤ)
    (cases : List (Option ℚ)) (out : List (Option ℚ))
    (hsi : 0 < si) (hc : ∀ x ∈ cases, 0 ≤ x.getD 0)
    (hok : estimate_rt cdf si window cases = .ok out) :
    ∀ r : ℚ, some r ∈ out → 0 ≤ r := by
  unfold estimate_rt at hok
  split at hok
  · exact absurd hok (by simp)
  · rw [Except.ok.injEq] at hok
    subst hok
    intro r hr
    obtain ⟨t, -, ht⟩ := List.mem_map.mp hr
    by_cases h0 : t = 0
    · subst h0
      simp [rtValue] at ht
    · simp only [rtValue, if_neg h0] at ht
      split at ht
      · exact absurd ht (by simp)
      · rename_i hden
        rw [Option.some.injEq] at ht
        subst ht
        have hnum : 0 ≤ (smoothedSeries window.toNat cases).getD t 0 :=
          getD_of_forall_nonneg _ _ (smoothedSeries_nonneg _ _ hc)
        refine div_nonneg hnum (le_of_lt (lt_trans ?_ (not_le.mp hden)))
        norm_num

/-- C10 (witness): the non-negativity of the defined entry of the
concrete R_t series `[none, some 1]`. -/
theorem estimate_rt_defined_nonneg_witness : (0 : ℚ) ≤ 1 :=
  estimate_rt_defined_nonneg linCdf (1 / 5) 7 [some 100, some 120]
    [none, some 1] (by norm_num)
    (by intro x hx; simp at hx; rcases hx with rfl | rfl <;> norm_num)
    rt_small_eval 1 (by simp)

theorem rtValue_denom_eq_renewal (w I : List ℚ) (kmax t : ℕ)
    (hk : w.length = kmax) (hkm : 1 ≤ kmax) (ht1 : 1 ≤ t)
    (ht2 : t ≤ I.length) :
    (((w.drop (w.length - ((I.drop (t - kmax)).take (t - (t - kmax))).length)).zip
        ((I.drop (t - kmax)).take (t - (t - kmax))).reverse).map
        (fun p => p.1 * p.2)).sum
      = ∑ j in Finset.range (min t kmax),
          w.getD (kmax - min t kmax + j) 0 * I.getD (t - 1 - j) 0 := by
  set lo := t - kmax with hlo
  set m := t - lo with hm0
  have hm : m = min t kmax := by omega
  have hIlen : ((I.drop lo).take m).length = m := by
    rw [List.length_take, List.length_drop]
    omega
  have hwlen : (w.drop (w.length - ((I.drop lo).take m).length)).length = m := by
    rw [hIlen, List.length_drop, hk]
    omega
  rw [zip_mul_sum, hwlen, List.length_reverse, hIlen, Nat.min_self, ← hm]
  apply Finset.sum_congr rfl
  intro j hj
  rw [Finset.mem_range] at hj
  congr 1
  · rw [hk, getD_drop]
  · rw [getD_reverse_lt _ _ (by rw [hIlen]; exact hj), hIlen,
      getD_take_lt _ _ _ (by omega), getD_drop]
    congr 1
    omega

/-- C1: for every day `t ≥ 1` of the returned R_t series, the entry is
governed by `denom` — the weighted sum of the `min(t, k_max)` smoothed
values strictly before `t`, reversed to lag order and paired with the
matching suffix of the kernel weights (`renewalDenom`): `none` when
`denom ≤ 1e-8`, and `I[t] / denom` otherwise. -/
theorem estimate_rt_renewal_equation (cdf : ℕ → ℚ) (si : ℚ) (window : ℤ)
    (cases : List (Option ℚ)) (out : List (Option ℚ)) (t : ℕ)
    (hok : estimate_rt cdf si window cases = .ok out)
    (ht1 : 1 ≤ t) (ht2 : t < cases.length) :
    out.getD t none =
      if renewalDenom cdf si window.toNat cases t ≤ 1 / 100000000 then none
      else some ((smoothedSeries window.toNat cases).getD t 0
        / renewalDenom cdf si window.toNat cases t) := by
  unfold estimate_rt at hok
  split at hok
  · exact absurd hok (by simp)
  · rw [Except.ok.injEq] at hok
    subst hok
    have hmap : ((List.range cases.length).map
        (rtValue (discrete_gamma_pmf cdf (kmaxOf si))
          (smoothedSeries window.toNat cases) (kmaxOf si))).getD t none
        = rtValue (discrete_gamma_pmf cdf (kmaxOf si))
            (smoothedSeries window.toNat cases) (kmaxOf si) t := by
      rw [List.getD_eq_getElem?_getD, List.getElem?_map,
        List.getElem?_range ht2]
      rfl
    rw [hmap]
    simp only [rtValue, if_neg (show ¬ t = 0 by omega)]
    rw [rtValue_denom_eq_renewal _ _ _ _
      (discrete_gamma_pmf_length cdf (kmaxOf si)) (kmaxOf_pos si) ht1
      (by rw [smoothedSeries_length]; omega)]
    simp only [renewalDenom]

/-- C1 (witness): the renewal-equation characterization at day 1 of the
concrete two-day series. -/
theorem estimate_rt_renewal_equation_witness :
    ([none, some (1 : ℚ)] : List (Option ℚ)).getD 1 none =
      if renewalDenom linCdf (1 / 5) (7 : ℤ).toNat [some 100, some 120] 1
          ≤ 1 / 100000000 then none
      else some ((smoothedSeries (7 : ℤ).toNat [some 100, some 120]).getD 1 0
        / renewalDenom linCdf (1 / 5) (7 : ℤ).toNat [some 100, some 120] 1) :=
  estimate_rt_renewal_equation linCdf (1 / 5) 7 [some 100, some 120]
    [none, some 1] 1 rt_small_eval (by norm_num) (by norm_num)

end CovidDash
